import Mathlib

/-!
# Verification of the tracky secure aggregation pipeline

Shallow embedding of the tracker-list aggregation service:
the configuration decoder of `functions/api/raw.js` (base64 repair,
Latin-1 escape restoration, dictionary decompression, JSON field
extraction), the SSRF hostname validators and content checks of the
three endpoint handlers, the aggregator/deduplicator, the response
composer, and the single-target proxy's status mapping.

JavaScript strings are modelled as lists of UTF-16 code units
(`List Nat`, each element < 0x10000 where relevant).  Fallible
platform operations (`atob`, JSON parsing) return `Option`.
-/

namespace Tracky

/-! ## Generic string helpers -/

/-- ASCII lower-casing of one code unit, as performed by
`String.prototype.toLowerCase` on the ASCII range (the only range the
hostnames and scheme prefixes in the source exercise). -/
def toLowerAscii (c : Nat) : Nat :=
  if 65 ≤ c ∧ c ≤ 90 then c + 32 else c

/-- The WhiteSpace and LineTerminator code points that
`String.prototype.trim` strips. -/
def jsWhitespace (c : Nat) : Bool :=
  c = 9 || c = 10 || c = 11 || c = 12 || c = 13 || c = 32 || c = 160 ||
  c = 5760 || (8192 ≤ c && c ≤ 8202) || c = 8232 || c = 8233 ||
  c = 8239 || c = 8287 || c = 12288 || c = 65279

/-- `String.prototype.trim`: strip leading and trailing whitespace. -/
def jsTrim (s : List Nat) : List Nat :=
  ((s.dropWhile jsWhitespace).reverse.dropWhile jsWhitespace).reverse

/-- `String.prototype.includes(pat)`: is `pat` a contiguous
subsequence of the string? -/
def containsSeq (pat : List Nat) : List Nat → Bool
  | [] => pat.isPrefixOf []
  | c :: rest => pat.isPrefixOf (c :: rest) || containsSeq pat rest

/-- `Array.prototype.join(sep)` for an array of strings. -/
def joinSep (sep : List Nat) : List (List Nat) → List Nat
  | [] => []
  | [x] => x
  | x :: y :: rest => x ++ sep ++ joinSep sep (y :: rest)

/-! ## Configuration data model -/

/-- The decoded request configuration of `raw.js`: candidate source
URLs, manual tracker entries, and the double-newline output flag. -/
structure Config where
  sources : List (List Nat)
  manual : List (List Nat)
  doubleNewline : Bool
  deriving DecidableEq

/-- All code units of every string of the configuration are valid
UTF-16 code units (< 0x10000), as is inherent for JavaScript strings. -/
def ConfigWF (C : Config) : Prop :=
  (∀ s ∈ C.sources, ∀ c ∈ s, c < 65536) ∧ (∀ s ∈ C.manual, ∀ c ∈ s, c < 65536)

/-! ## Decoder, from `functions/api/raw.js`

`latin1ToString` (lines 186-201): restore escape sequences
`[0xFF][lowByte][highByte]` to single code units; a 0xFF with fewer
than two following units is copied literally. -/

def latin1ToString : List Nat → List Nat
  | 255 :: lo :: hi :: rest => ((hi <<< 8) ||| lo) :: latin1ToString rest
  | c :: rest => c :: latin1ToString rest
  | [] => []

/-- `result.split(marker).join(entry)` for a single-character marker:
replace every occurrence of code unit `m` by `repl`. -/
def substChar (m : Nat) (repl : List Nat) (s : List Nat) : List Nat :=
  s.flatMap (fun c => if c = m then repl else [c])

/-- The marker-expansion loop of `decompress` (raw.js lines 177-180):
`for (let i = dictionary.length - 1; i >= 0; i--)` replace marker
`0xE000 + i` by `dictionary[i]`, highest index first. -/
def expandDown (dict : List (List Nat)) : Nat → List Nat → List Nat
  | 0, r => r
  | i + 1, r => expandDown dict i (substChar (57344 + i) (dict.getD i []) r)

/-- The dictionary-entry reading loop of `decompress` (raw.js lines
164-171): read `k` entries, each a big-endian 2-byte length followed
by that many units.  Reads past the end of the input behave like
JavaScript `charCodeAt`/`substring` on out-of-range indices: the
remaining entries are empty and the body is empty. -/
def readEntries : Nat → List Nat → List (List Nat) × List Nat
  | 0, s => ([], s)
  | k + 1, [] => (List.replicate (k + 1) [], [])
  | k + 1, [_] => (List.replicate (k + 1) [], [])
  | k + 1, hi :: lo :: rest =>
    let len := (hi <<< 8) ||| lo
    let r := readEntries k (rest.drop len)
    (rest.take len :: r.1, r.2)

/-- `decompress` (raw.js lines 153-183): first unit 0xFF means the
remainder is literal JSON; otherwise the first unit is the dictionary
entry count, followed by the entries and the marker-compressed body. -/
def decompress : List Nat → List Nat
  | [] => []
  | c :: rest =>
    if c = 255 then rest
    else
      let p := readEntries c rest
      expandDown p.1 p.1.length p.2

/-! ## Base64 (platform `btoa`/`atob`)

Standard base64 with `=` padding over byte strings, the subset of
forgiving-base64 the wire encoding produces. -/

/-- Value 0-63 to base64 alphabet code unit. -/
def b64Char (v : Nat) : Nat :=
  if v < 26 then 65 + v
  else if v < 52 then 97 + (v - 26)
  else if v < 62 then 48 + (v - 52)
  else if v = 62 then 43
  else 47

/-- Base64 alphabet code unit back to its 6-bit value. -/
def b64Val (c : Nat) : Option Nat :=
  if 65 ≤ c ∧ c ≤ 90 then some (c - 65)
  else if 97 ≤ c ∧ c ≤ 122 then some (c - 97 + 26)
  else if 48 ≤ c ∧ c ≤ 57 then some (c - 48 + 52)
  else if c = 43 then some 62
  else if c = 47 then some 63
  else none

/-- `btoa`: encode a byte string (all units < 256) to base64. -/
def btoa : List Nat → List Nat
  | [] => []
  | [a] => [b64Char (a / 4), b64Char (a % 4 * 16), 61, 61]
  | [a, b] => [b64Char (a / 4), b64Char (a % 4 * 16 + b / 16), b64Char (b % 16 * 4), 61]
  | a :: b :: c :: rest =>
    b64Char (a / 4) :: b64Char (a % 4 * 16 + b / 16) :: b64Char (b % 16 * 4 + c / 64) ::
      b64Char (c % 64) :: btoa rest

/-- `atob`: decode padded base64, `none` on malformed input. -/
def atob : List Nat → Option (List Nat)
  | [] => some []
  | c1 :: c2 :: c3 :: c4 :: rest =>
    match b64Val c1, b64Val c2 with
    | some v1, some v2 =>
      if c3 = 61 then
        if c4 = 61 ∧ rest = [] then some [v1 * 4 + v2 / 16] else none
      else
        match b64Val c3 with
        | some v3 =>
          if c4 = 61 then
            if rest = [] then some [v1 * 4 + v2 / 16, v2 % 16 * 16 + v3 / 4] else none
          else
            match b64Val c4, atob rest with
            | some v4, some bs =>
              some ((v1 * 4 + v2 / 16) :: (v2 % 16 * 16 + v3 / 4) :: (v3 % 4 * 64 + v4) :: bs)
            | _, _ => none
        | none => none
    | _, _ => none
  | _ => none

/-- The `data` parameter repair of raw.js line 27:
`encodedData.replace(/ /g, '+')`. -/
def repairPlus (s : List Nat) : List Nat :=
  s.map (fun c => if c = 32 then 43 else c)

/-! ## JSON codec for Configuration documents

The decoder's final stage is platform `JSON.parse` plus field
extraction (raw.js lines 30-40).  Modelled from the spec: the platform
JSON serializer/parser pair, restricted to the canonical Configuration
document `{"sources":[...],"manual":[...],"doubleNewline":bool}` with
string escapes for `"`, `\` and control characters; any other input
parses to `none`, matching the handler's single collapsed decode
error. -/

/-- Lower-case hexadecimal digit for a value < 16. -/
def hexDigitChar (n : Nat) : Nat :=
  if n < 10 then 48 + n else 87 + n

/-- Hexadecimal digit code unit to its value. -/
def hexVal (c : Nat) : Option Nat :=
  if 48 ≤ c ∧ c ≤ 57 then some (c - 48)
  else if 97 ≤ c ∧ c ≤ 102 then some (c - 97 + 10)
  else if 65 ≤ c ∧ c ≤ 70 then some (c - 65 + 10)
  else none

/-- JSON string-literal escaping of one code unit. -/
def escChar (c : Nat) : List Nat :=
  if c = 34 then [92, 34]
  else if c = 92 then [92, 92]
  else if c < 32 then [92, 117, 48, 48, hexDigitChar (c / 16), hexDigitChar (c % 16)]
  else [c]

/-- Body of a JSON string literal. -/
def escapeJson (s : List Nat) : List Nat :=
  s.flatMap escChar

/-- A complete JSON string literal, quotes included. -/
def quoteJson (s : List Nat) : List Nat :=
  34 :: (escapeJson s ++ [34])

/-- Comma-separated JSON string literals (the body of a JSON array of
strings). -/
def jsonStrList : List (List Nat) → List Nat
  | [] => []
  | [x] => quoteJson x
  | x :: y :: rest => quoteJson x ++ 44 :: jsonStrList (y :: rest)

/-- Literal `{"sources":[`. -/
def litSourcesKey : List Nat :=
  [123, 34, 115, 111, 117, 114, 99, 101, 115, 34, 58, 91]

/-- Literal `,"manual":[`. -/
def litManualKey : List Nat :=
  [44, 34, 109, 97, 110, 117, 97, 108, 34, 58, 91]

/-- Literal `,"doubleNewline":`. -/
def litDoubleNewlineKey : List Nat :=
  [44, 34, 100, 111, 117, 98, 108, 101, 78, 101, 119, 108, 105, 110, 101, 34, 58]

/-- Literal `true}`. -/
def litTrue : List Nat := [116, 114, 117, 101, 125]

/-- Literal `false}`. -/
def litFalse : List Nat := [102, 97, 108, 115, 101, 125]

/-- The canonical JSON document of a configuration, as an
interoperating encoder serializes it. -/
def serializeConfig (C : Config) : List Nat :=
  litSourcesKey ++ jsonStrList C.sources ++ [93] ++
    litManualKey ++ jsonStrList C.manual ++ [93] ++
    litDoubleNewlineKey ++ (if C.doubleNewline then litTrue else litFalse)

/-- Parse the body of a JSON string literal (opening quote already
consumed); returns the decoded units and the input after the closing
quote. -/
def parseJsonString : List Nat → Option (List Nat × List Nat)
  | [] => none
  | c :: rest =>
    if c = 34 then some ([], rest)
    else if c = 92 then
      match rest with
      | 34 :: r2 => (parseJsonString r2).map (fun p => (34 :: p.1, p.2))
      | 92 :: r2 => (parseJsonString r2).map (fun p => (92 :: p.1, p.2))
      | 117 :: a :: b :: x :: d :: r2 =>
        match hexVal a, hexVal b, hexVal x, hexVal d with
        | some va, some vb, some vx, some vd =>
          (parseJsonString r2).map
            (fun p => ((va * 4096 + vb * 256 + vx * 16 + vd) :: p.1, p.2))
        | _, _, _, _ => none
      | _ => none
    else (parseJsonString rest).map (fun p => (c :: p.1, p.2))

/-- Parse the items of a JSON array of strings (opening bracket
already consumed), consuming the closing bracket; `fuel` bounds the
item count. -/
def parseStrings : Nat → List Nat → Option (List (List Nat) × List Nat)
  | 0, _ => none
  | _ + 1, [] => none
  | fuel + 1, c :: rest =>
    if c = 93 then some ([], rest)
    else if c = 34 then
      match parseJsonString rest with
      | none => none
      | some (s, r1) =>
        match r1 with
        | [] => none
        | d :: r2 =>
          if d = 93 then some ([s], r2)
          else if d = 44 then
            match parseStrings fuel r2 with
            | some (ss, r3) => some (s :: ss, r3)
            | none => none
          else none
    else none

/-- Consume an expected literal prefix. -/
def matchLit : List Nat → List Nat → Option (List Nat)
  | [], s => some s
  | _ :: _, [] => none
  | p :: ps, c :: cs => if c = p then matchLit ps cs else none

/-- Parse a canonical Configuration document (the decoder's
`JSON.parse` plus the field extraction of raw.js lines 32-40,
restricted to canonical documents). -/
def parseConfigJson (s : List Nat) : Option Config :=
  match matchLit litSourcesKey s with
  | none => none
  | some r1 =>
    match parseStrings (r1.length + 1) r1 with
    | none => none
    | some (src, r2) =>
      match matchLit litManualKey r2 with
      | none => none
      | some r3 =>
        match parseStrings (r3.length + 1) r3 with
        | none => none
        | some (man, r4) =>
          match matchLit litDoubleNewlineKey r4 with
          | none => none
          | some r5 =>
            if r5 = litTrue then some ⟨src, man, true⟩
            else if r5 = litFalse then some ⟨src, man, false⟩
            else none

/-- The full `data`-parameter decode chain of raw.js lines 27-30:
space repair, base64 decode, escape restoration, dictionary
decompression, JSON parse and field extraction.  Every failure
collapses to `none` (the handler's single 400 error). -/
def decodeData (input : List Nat) : Option Config :=
  match atob (repairPlus input) with
  | none => none
  | some bytes => parseConfigJson (decompress (latin1ToString bytes))

/-! ## Encoder, modelled from the spec

Modelled from the spec: the interoperating encoder is not part of the
repository; the spec fixes its wire format.  `Compress`: leading byte
0xFF means the remainder is literal JSON; otherwise one byte of
dictionary count, then entries of `[uint16 big-endian length][raw
text]`, then the body with private-use markers `U+E000+i`.
`LatinEscape`: any code point > 0xFF becomes `[0xFF][lowByte][highByte]`. -/

/-- Modelled from the spec: the compression bypass, `0xFF` followed by
the literal JSON document. -/
def compressBypass (doc : List Nat) : List Nat :=
  255 :: doc

/-- Modelled from the spec: one dictionary entry on the wire,
`[uint16 big-endian length][raw text]`. -/
def entryBytes (e : List Nat) : List Nat :=
  e.length / 256 :: e.length % 256 :: e

/-- Modelled from the spec: a dictionary-compressed document, one
count byte, the entries, then the marker-compressed body. -/
def compressDict (dict : List (List Nat)) (body : List Nat) : List Nat :=
  dict.length :: (dict.flatMap entryBytes ++ body)

/-- Modelled from the spec, verbatim: `LatinEscape` encodes any code
point strictly greater than 0xFF as `[0xFF][lowByte][highByte]`; the
code point 0xFF itself passes through literally. -/
def latinEscape (s : List Nat) : List Nat :=
  s.flatMap (fun c => if 255 < c then [255, c % 256, c / 256] else [c])

/-- The repaired escape stage: code points greater than *or equal to*
0xFF are escaped, so the literal 0xFF produced by the compression
stage (bypass marker, a count byte of 255, entry text) is itself
escaped and survives `latin1ToString`. -/
def latinEscapeGE (s : List Nat) : List Nat :=
  s.flatMap (fun c => if 255 ≤ c then [255, c % 256, c / 256] else [c])

/-- Modelled from the spec: the wire encoding
`Base64(LatinEscape(Compress(JSON)))` on the bypass path, with
`LatinEscape` exactly as the spec states it (escaping only code points
strictly above 0xFF). -/
def specWireBypass (doc : List Nat) : List Nat :=
  btoa (latinEscape (compressBypass doc))

/-- The bypass-path wire encoding with the repaired escape stage
(0xFF itself escaped). -/
def fixedWireBypass (doc : List Nat) : List Nat :=
  btoa (latinEscapeGE (compressBypass doc))

/-- The dictionary-path wire encoding with the repaired escape stage. -/
def fixedWireDict (dict : List (List Nat)) (body : List Nat) : List Nat :=
  btoa (latinEscapeGE (compressDict dict body))

/-! ## Target validators (SSRF hostname classification)

The hostname is lower-cased before classification in all three
handlers; the classifiers below take the lower-cased hostname. -/

/-- Literal `localhost`. -/
def litLocalhost : List Nat := [108, 111, 99, 97, 108, 104, 111, 115, 116]

/-- Literal `.local`. -/
def litDotLocal : List Nat := [46, 108, 111, 99, 97, 108]

/-- Literal `127.`. -/
def lit127 : List Nat := [49, 50, 55, 46]

/-- Literal `10.`. -/
def lit10 : List Nat := [49, 48, 46]

/-- Literal `192.168.`. -/
def lit192168 : List Nat := [49, 57, 50, 46, 49, 54, 56, 46]

/-- Literal `0.`. -/
def lit0 : List Nat := [48, 46]

/-- Literal `::1`. -/
def litV6Loop : List Nat := [58, 58, 49]

/-- The regex `/^172\.(1[6-9]|2[0-9]|3[0-1])\./` of proxy.js line 36
and part_000 line 51: `172.16.` through `172.31.`. -/
def in172Range (h : List Nat) : Bool :=
  match h with
  | 49 :: 55 :: 50 :: 46 :: d1 :: d2 :: 46 :: _ =>
    (d1 = 49 && 54 ≤ d2 && d2 ≤ 57) || (d1 = 50 && 48 ≤ d2 && d2 ≤ 57) ||
      (d1 = 51 && (d2 = 48 || d2 = 49))
  | _ => false

/-- The aggregation fetcher's hostname check, raw.js line 114:
`hostname.match(/^127\.|^10\.|^192\.168\.|^0\.|::1/) || hostname === 'localhost'`. -/
def rawIsPrivate (h : List Nat) : Bool :=
  (lit127.isPrefixOf h || lit10.isPrefixOf h || lit192168.isPrefixOf h ||
    lit0.isPrefixOf h || containsSeq litV6Loop h) || h = litLocalhost

/-- The single-target proxy's hostname check, proxy.js lines 30-39. -/
def proxyIsPrivate (h : List Nat) : Bool :=
  h = litLocalhost || litDotLocal.isSuffixOf h ||
    lit127.isPrefixOf h || lit10.isPrefixOf h || lit192168.isPrefixOf h ||
    in172Range h || lit0.isPrefixOf h || containsSeq litV6Loop h

/-- The batch proxy's hostname check, part_000 lines 48-52. -/
def batchIsPrivate (h : List Nat) : Bool :=
  h = litLocalhost || litDotLocal.isSuffixOf h ||
    (lit127.isPrefixOf h || lit10.isPrefixOf h || lit192168.isPrefixOf h ||
      lit0.isPrefixOf h || containsSeq litV6Loop h) ||
    in172Range h

/-- Two-digit decimal representation of a number 10-99. -/
def digits2 (n : Nat) : List Nat :=
  [48 + n / 10, 48 + n % 10]

/-- The spec's private-hostname classification (spec 4.2): equals
`localhost`, ends with `.local`, starts with `127.`, `10.`,
`192.168.`, `0.`, or `172.16.` through `172.31.`, or contains `::1`. -/
def specIsPrivate (h : List Nat) : Prop :=
  h = litLocalhost ∨ litDotLocal <:+ h ∨ lit127 <+: h ∨ lit10 <+: h ∨
    lit192168 <+: h ∨
    (∃ n, 16 ≤ n ∧ n ≤ 31 ∧ ([49, 55, 50, 46] ++ digits2 n ++ [46]) <+: h) ∨
    lit0 <+: h ∨ litV6Loop <:+: h

/-- The reduced classification the aggregation fetcher actually
implements: no `.local` suffix rule and no `172.16.`-`172.31.` rule. -/
def specIsPrivateReduced (h : List Nat) : Prop :=
  h = litLocalhost ∨ lit127 <+: h ∨ lit10 <+: h ∨ lit192168 <+: h ∨
    lit0 <+: h ∨ litV6Loop <:+: h

/-! ## Bounded fetcher: size and content checks -/

/-- 512 KiB, the `MAX_SIZE_BYTES` of both proxy handlers and the
inline limit of raw.js line 138. -/
def MAX_SIZE_BYTES : Nat := 1024 * 512

/-- raw.js lines 137-140: a body longer than the limit is rejected
(`return null`), not truncated. -/
def rawBodyGate (text : List Nat) : Option (List Nat) :=
  if text.length > 512 * 1024 then none else some text

/-- proxy.js lines 88-91 and part_000 lines 71-73: a body longer than
the limit is truncated to its first `MAX_SIZE_BYTES` units. -/
def proxyTruncate (text : List Nat) : List Nat :=
  if text.length > MAX_SIZE_BYTES then text.take MAX_SIZE_BYTES else text

/-- proxy.js lines 93-104: the first 1000 units, lower-cased, must
contain `udp://`, `http://`, `https://` or `wss://`. -/
def proxyContentOk (text : List Nat) : Bool :=
  let sample := (text.take 1000).map toLowerAscii
  containsSeq [117, 100, 112, 58, 47, 47] sample ||
    containsSeq [104, 116, 116, 112, 58, 47, 47] sample ||
    containsSeq [104, 116, 116, 112, 115, 58, 47, 47] sample ||
    containsSeq [119, 115, 115, 58, 47, 47] sample

/-- part_000 lines 76-77: the first 500 units, lower-cased, must
contain `udp://`, `http://` or `wss://` (no `https://` pattern). -/
def batchContentOk (text : List Nat) : Bool :=
  let sample := (text.take 500).map toLowerAscii
  containsSeq [117, 100, 112, 58, 47, 47] sample ||
    containsSeq [104, 116, 116, 112, 58, 47, 47] sample ||
    containsSeq [119, 115, 115, 58, 47, 47] sample

/-- part_000 lines 79-81: a body passes unless the check fails *and*
the trimmed body is non-empty (whitespace-only bodies are accepted). -/
def batchContentAccept (text : List Nat) : Bool :=
  batchContentOk text || jsTrim text = []

/-! ## Aggregator, from raw.js lines 67-76 and 100-106 -/

/-- JavaScript `Set.prototype.add` on an insertion-ordered set
modelled as a duplicate-free list: append if absent. -/
def insertTracker (set : List (List Nat)) (x : List Nat) : List (List Nat) :=
  if x ∈ set then set else set ++ [x]

/-- The scheme test of raw.js line 103,
`/^(udp|http|https|wss):\/\//i.test(clean)`: the lower-cased line
starts with `udp://`, `http://`, `https://` or `wss://` (the compiled
meaning of the anchored, case-insensitive alternation). -/
def schemeTest (clean : List Nat) : Bool :=
  let lower := clean.map toLowerAscii
  [117, 100, 112, 58, 47, 47].isPrefixOf lower ||
    [104, 116, 116, 112, 58, 47, 47].isPrefixOf lower ||
    [104, 116, 116, 112, 115, 58, 47, 47].isPrefixOf lower ||
    [119, 115, 115, 58, 47, 47].isPrefixOf lower

/-- `cleanAndAdd` (raw.js lines 100-106): trim, drop empty lines and
`#` comments, keep allowed-scheme lines, insert into the set. -/
def cleanAndAdd (line : List Nat) (set : List (List Nat)) : List (List Nat) :=
  let clean := jsTrim line
  if clean = [] then set
  else if clean.head? = some 35 then set
  else if schemeTest clean then insertTracker set clean
  else set

/-- `text.split('\n')`. -/
def splitLines (text : List Nat) : List (List Nat) :=
  text.splitOn 10

/-- The aggregation loop of raw.js lines 67-76: manual entries first,
then each successful body's lines, in source order.  A `none` body is
a failed fetch; an empty body is skipped by the `if (!text)` guard. -/
def aggregate (manual : List (List Nat)) (bodies : List (Option (List Nat))) :
    List (List Nat) :=
  let s1 := manual.foldl (fun st t => cleanAndAdd t st) []
  bodies.foldl
    (fun st ob =>
      match ob with
      | none => st
      | some text =>
        if text = [] then st
        else (splitLines text).foldl (fun st2 l => cleanAndAdd l st2) st)
    s1

/-- The line filter as one function: `some` of the trimmed line when
it survives `cleanAndAdd`, `none` otherwise. -/
def cleanLine (line : List Nat) : Option (List Nat) :=
  let clean := jsTrim line
  if clean = [] then none
  else if clean.head? = some 35 then none
  else if schemeTest clean then some clean
  else none

/-- First-occurrence deduplication, keeping insertion order. -/
def dedupKeepFirst (xs : List (List Nat)) : List (List Nat) :=
  xs.foldl insertTracker []

/-- The lines a fetch outcome contributes, before filtering. -/
def bodyLines (ob : Option (List Nat)) : List (List Nat) :=
  match ob with
  | none => []
  | some text => if text = [] then [] else splitLines text

/-- The qualifying lines of a request, in processing order: manual
entries first, then the lines of each successful non-empty body. -/
def qualifyingLines (manual : List (List Nat)) (bodies : List (Option (List Nat))) :
    List (List Nat) :=
  (manual ++ bodies.flatMap bodyLines).filterMap cleanLine

/-! ## Response composer, from raw.js lines 80-96 -/

/-- raw.js line 4: the debug flag, `true` as shipped. -/
def DEBUG : Bool := true

/-- The response-body composition of raw.js lines 81-87, parameterized
over the debug flag: join the set with the chosen separator; when
debugging, prepend the debug log lines and a blank line. -/
def responseTextWith (dbg : Bool) (debugLogs : List (List Nat))
    (trackers : List (List Nat)) (useDoubleNewline : Bool) : List Nat :=
  let separator := if useDoubleNewline then [10, 10] else [10]
  let body := joinSep separator trackers
  if dbg then joinSep [10] debugLogs ++ [10, 10] ++ body else body

/-- The response body as shipped (`DEBUG = true`). -/
def responseText (debugLogs : List (List Nat)) (trackers : List (List Nat))
    (useDoubleNewline : Bool) : List Nat :=
  responseTextWith DEBUG debugLogs trackers useDoubleNewline

/-- The response headers of raw.js lines 90-95: `Content-Type:
text/plain; charset=utf-8`, `Content-Disposition: inline;
filename="trackers_sync.txt"`, `Cache-Control: public, max-age=3600`,
`Access-Control-Allow-Origin: *`. -/
def rawResponseHeaders : List (List Nat × List Nat) :=
  [([67, 111, 110, 116, 101, 110, 116, 45, 84, 121, 112, 101],
      [116, 101, 120, 116, 47, 112, 108, 97, 105, 110, 59, 32, 99, 104, 97, 114,
        115, 101, 116, 61, 117, 116, 102, 45, 56]),
    ([67, 111, 110, 116, 101, 110, 116, 45, 68, 105, 115, 112, 111, 115, 105, 116,
        105, 111, 110],
      [105, 110, 108, 105, 110, 101, 59, 32, 102, 105, 108, 101, 110, 97, 109, 101,
        61, 34, 116, 114, 97, 99, 107, 101, 114, 115, 95, 115, 121, 110, 99, 46,
        116, 120, 116, 34]),
    ([67, 97, 99, 104, 101, 45, 67, 111, 110, 116, 114, 111, 108],
      [112, 117, 98, 108, 105, 99, 44, 32, 109, 97, 120, 45, 97, 103, 101, 61, 51,
        54, 48, 48]),
    ([65, 99, 99, 101, 115, 115, 45, 67, 111, 110, 116, 114, 111, 108, 45, 65, 108,
        108, 111, 119, 45, 79, 114, 105, 103, 105, 110],
      [42])]

/-! ## Single-target proxy endpoint, from `functions/api/proxy.js` -/

/-- The parsed pieces of the target URL the handler inspects. -/
structure ParsedUrl where
  protocol : List Nat
  hostname : List Nat
  deriving DecidableEq

/-- Literal `http:`. -/
def litHttpProto : List Nat := [104, 116, 116, 112, 58]

/-- Literal `https:`. -/
def litHttpsProto : List Nat := [104, 116, 116, 112, 115, 58]

/-- Literal `127.0.0.1`. -/
def lit127001 : List Nat := [49, 50, 55, 46, 48, 46, 48, 46, 49]

/-- The upstream fetch as the handler observes it: aborted by the
deadline timer, failed in transport, or returning a response. -/
inductive FetchBehavior where
  | aborts : FetchBehavior
  | fails : FetchBehavior
  | returns (ok : Bool) (status : Nat) (contentLength : Option Nat)
      (body : List Nat) : FetchBehavior
  deriving DecidableEq

/-- The single-target proxy handler of proxy.js, as a function from
the request's observable inputs to the HTTP status code it responds
with (200 for the success path).  `urlParam` is the `url` query
parameter, `parsed` its platform URL parse, `origin` the
`Origin`/`Referer` header value (`[]` when absent), `selfOrigin` the
worker's own origin. -/
def proxyRespond (urlParam : Option (List Nat)) (parsed : Option ParsedUrl)
    (origin : List Nat) (selfOrigin : List Nat) (fetch : FetchBehavior) : Nat :=
  match urlParam with
  | none => 400
  | some _ =>
    match parsed with
    | none => 400
    | some u =>
      if ¬ (u.protocol = litHttpProto ∨ u.protocol = litHttpsProto) then 403
      else if proxyIsPrivate (u.hostname.map toLowerAscii) then 403
      else if origin ≠ [] ∧ ¬ (containsSeq selfOrigin origin = true) ∧
          ¬ (containsSeq litLocalhost origin = true) ∧
          ¬ (containsSeq lit127001 origin = true) then 403
      else
        match fetch with
        | .aborts => 504
        | .fails => 500
        | .returns ok _status contentLength body =>
          if ¬ ok then 502
          else if cl : contentLength.isSome then
            if contentLength.get cl > MAX_SIZE_BYTES then 413
            else if proxyContentOk (proxyTruncate body) then 200 else 422
          else if proxyContentOk (proxyTruncate body) then 200 else 422
  -- note: status is unused beyond `ok`, matching the 502 branch's
  -- interpolation of it into the error text only

/-- The failure taxonomy of the single-target proxy (spec 7). -/
inductive ProxyOutcome where
  | missingUrl | invalidUrl | badProtocol | privateHost | badOrigin
  | headerTooLarge | upstreamNotOk | timeout | contentInvalid | fetchFailed | ok
  deriving DecidableEq

/-- Classify a request by which branch of the handler decides it. -/
def proxyClassify (urlParam : Option (List Nat)) (parsed : Option ParsedUrl)
    (origin : List Nat) (selfOrigin : List Nat) (fetch : FetchBehavior) :
    ProxyOutcome :=
  match urlParam with
  | none => .missingUrl
  | some _ =>
    match parsed with
    | none => .invalidUrl
    | some u =>
      if ¬ (u.protocol = litHttpProto ∨ u.protocol = litHttpsProto) then .badProtocol
      else if proxyIsPrivate (u.hostname.map toLowerAscii) then .privateHost
      else if origin ≠ [] ∧ ¬ (containsSeq selfOrigin origin = true) ∧
          ¬ (containsSeq litLocalhost origin = true) ∧
          ¬ (containsSeq lit127001 origin = true) then .badOrigin
      else
        match fetch with
        | .aborts => .timeout
        | .fails => .fetchFailed
        | .returns ok _ contentLength body =>
          if ¬ ok then .upstreamNotOk
          else if cl : contentLength.isSome then
            if contentLength.get cl > MAX_SIZE_BYTES then .headerTooLarge
            else if proxyContentOk (proxyTruncate body) then .ok else .contentInvalid
          else if proxyContentOk (proxyTruncate body) then .ok else .contentInvalid

/-- The HTTP status each outcome maps to in proxy.js. -/
def proxyStatus : ProxyOutcome → Nat
  | .missingUrl => 400
  | .invalidUrl => 400
  | .badProtocol => 403
  | .privateHost => 403
  | .badOrigin => 403
  | .headerTooLarge => 413
  | .upstreamNotOk => 502
  | .timeout => 504
  | .contentInvalid => 422
  | .fetchFailed => 500
  | .ok => 200

/-! ## Arithmetic and base64 lemmas -/

theorem lor8 (a b : Nat) (hb : b < 256) : (a <<< 8) ||| b = a * 256 + b := by
  apply Nat.eq_of_testBit_eq
  intro i
  have h256 : a * 256 = 2 ^ 8 * a := by ring
  have hb8 : b < 2 ^ 8 := by norm_num at hb ⊢; omega
  rw [Nat.testBit_lor, Nat.testBit_shiftLeft, h256, Nat.testBit_mul_pow_two_add a hb8 i]
  by_cases h : i < 8
  · have : ¬ (i ≥ 8) := by omega
    simp [h, this]
  · have hge : i ≥ 8 := by omega
    simp [h, hge]
    have := Nat.testBit_eq_false_of_lt
      (show b < 2 ^ i from lt_of_lt_of_le hb8 (Nat.pow_le_pow_right (by norm_num) hge))
    simp [this]

theorem b64Val_b64Char : ∀ v : Nat, v < 64 → b64Val (b64Char v) = some v := by decide

theorem b64Char_ne_61 : ∀ v : Nat, v < 64 → b64Char v ≠ 61 := by decide

theorem b64Char_ne_32 : ∀ v : Nat, v < 64 → b64Char v ≠ 32 := by decide

theorem atob_btoa (bs : List Nat) (h : ∀ b ∈ bs, b < 256) : atob (btoa bs) = some bs := by
  induction bs using btoa.induct with
  | case1 => rfl
  | case2 a =>
    have ha : a < 256 := h a (by simp)
    rw [btoa, atob]
    rw [b64Val_b64Char _ (by omega), b64Val_b64Char _ (by omega)]
    simp only [if_pos rfl]
    simp only [and_self, if_pos]
    congr 2
    omega
  | case3 a b =>
    have ha : a < 256 := h a (by simp)
    have hb : b < 256 := h b (by simp)
    rw [btoa, atob]
    rw [b64Val_b64Char _ (by omega), b64Val_b64Char _ (by omega), b64Val_b64Char _ (by omega)]
    dsimp only
    rw [if_neg (b64Char_ne_61 _ (by omega))]
    simp only [if_pos rfl, and_self, reduceIte]
    congr 3
    · omega
    · omega
  | case4 a b c rest ih =>
    have ha : a < 256 := h a (by simp)
    have hb : b < 256 := h b (by simp)
    have hc : c < 256 := h c (by simp)
    have hrest : ∀ x ∈ rest, x < 256 := fun x hx => h x (by simp [hx])
    rw [btoa, atob]
    rw [b64Val_b64Char _ (by omega), b64Val_b64Char _ (by omega), b64Val_b64Char _ (by omega),
      b64Val_b64Char _ (by omega)]
    dsimp only
    rw [if_neg (b64Char_ne_61 _ (by omega))]
    rw [if_neg (b64Char_ne_61 _ (by omega))]
    rw [ih hrest]
    dsimp only
    congr 4
    · omega
    · omega
    · omega

theorem btoa_ne_32 (bs : List Nat) (h : ∀ b ∈ bs, b < 256) : ∀ c ∈ btoa bs, c ≠ 32 := by
  induction bs using btoa.induct with
  | case1 => simp [btoa]
  | case2 a =>
    have ha : a < 256 := h a (by simp)
    intro c hc
    rw [btoa] at hc
    simp only [List.mem_cons, List.mem_singleton] at hc
    rcases hc with rfl | rfl | rfl | rfl | h'
    · exact b64Char_ne_32 _ (by omega)
    · exact b64Char_ne_32 _ (by omega)
    · omega
    · omega
    · simp at h'
  | case3 a b =>
    have ha : a < 256 := h a (by simp)
    have hb : b < 256 := h b (by simp)
    intro c hc
    rw [btoa] at hc
    simp only [List.mem_cons, List.mem_singleton] at hc
    rcases hc with rfl | rfl | rfl | rfl | h'
    · exact b64Char_ne_32 _ (by omega)
    · exact b64Char_ne_32 _ (by omega)
    · exact b64Char_ne_32 _ (by omega)
    · omega
    · simp at h'
  | case4 a b c rest ih =>
    have ha : a < 256 := h a (by simp)
    have hb : b < 256 := h b (by simp)
    have hc : c < 256 := h c (by simp)
    have hrest : ∀ x ∈ rest, x < 256 := fun x hx => h x (by simp [hx])
    intro x hx
    rw [btoa] at hx
    simp only [List.mem_cons] at hx
    rcases hx with rfl | rfl | rfl | rfl | h'
    · exact b64Char_ne_32 _ (by omega)
    · exact b64Char_ne_32 _ (by omega)
    · exact b64Char_ne_32 _ (by omega)
    · exact b64Char_ne_32 _ (by omega)
    · exact ih hrest x h'

theorem repairPlus_btoa (bs : List Nat) (h : ∀ b ∈ bs, b < 256) :
    repairPlus (btoa bs) = btoa bs := by
  have h32 := btoa_ne_32 bs h
  unfold repairPlus
  conv_rhs => rw [← List.map_id (btoa bs)]
  apply List.map_congr_left
  intro c hc
  simp [h32 c hc]

/-! ## Latin-1 escape restoration lemmas -/

theorem latin1ToString_cons_ne (c : Nat) (hc : c ≠ 255) (rest : List Nat) :
    latin1ToString (c :: rest) = c :: latin1ToString rest := by
  rw [latin1ToString.eq_def]
  split
  · rename_i lo hi r heq
    rw [List.cons.injEq] at heq
    omega
  · rename_i c' rest' heq
    rw [List.cons.injEq] at heq
    rw [heq.1, heq.2]
  · rename_i heq
    exact absurd heq (by simp)

theorem latin1_latinEscapeGE (s : List Nat) (h : ∀ c ∈ s, c < 65536) :
    latin1ToString (latinEscapeGE s) = s := by
  induction s with
  | nil => rfl
  | cons c rest ih =>
    have hc : c < 65536 := h c (by simp)
    have hrest : ∀ x ∈ rest, x < 65536 := fun x hx => h x (by simp [hx])
    by_cases h255 : 255 ≤ c
    · have hesc : latinEscapeGE (c :: rest) =
          255 :: c % 256 :: c / 256 :: latinEscapeGE rest := by
        simp [latinEscapeGE, h255]
      rw [hesc, latin1ToString]
      rw [lor8 _ _ (Nat.mod_lt _ (by norm_num)), ih hrest]
      congr 1
      omega
    · have hesc : latinEscapeGE (c :: rest) = c :: latinEscapeGE rest := by
        simp [latinEscapeGE, h255]
      rw [hesc, latin1ToString_cons_ne c (by omega), ih hrest]

theorem latinEscapeGE_lt_256 (s : List Nat) (h : ∀ c ∈ s, c < 65536) :
    ∀ b ∈ latinEscapeGE s, b < 256 := by
  intro b hb
  unfold latinEscapeGE at hb
  rw [List.mem_flatMap] at hb
  obtain ⟨a, ha, hba⟩ := hb
  have ha' : a < 65536 := h a ha
  by_cases h255 : 255 ≤ a
  · simp [h255] at hba
    rcases hba with rfl | rfl | rfl
    · omega
    · exact Nat.mod_lt _ (by norm_num)
    · omega
  · simp [h255] at hba
    simp at h255
    omega

/-- The composed outer transport layers: base64 decode after space
repair undoes `btoa`, and escape restoration undoes the repaired
escape stage, for any document of valid code units. -/
theorem decodeData_transport (w : List Nat) (h : ∀ c ∈ w, c < 65536) :
    decodeData (btoa (latinEscapeGE w)) =
      parseConfigJson (decompress (latin1ToString (latinEscapeGE w))) := by
  have hbytes := latinEscapeGE_lt_256 w h
  unfold decodeData
  rw [repairPlus_btoa _ hbytes, atob_btoa _ hbytes]

/-! ## Dictionary compression lemmas -/

theorem substChar_nil (m : Nat) (repl : List Nat) : substChar m repl [] = [] := rfl

theorem expandDown_nil (dict : List (List Nat)) : ∀ n, expandDown dict n [] = []
  | 0 => rfl
  | n + 1 => by
    rw [expandDown, substChar_nil]
    exact expandDown_nil dict n

theorem readEntries_entryBytes (dict : List (List Nat)) (body : List Nat)
    (h : ∀ e ∈ dict, e.length < 65536) :
    readEntries dict.length (dict.flatMap entryBytes ++ body) = (dict, body) := by
  induction dict with
  | nil => rfl
  | cons e dict ih =>
    have he : e.length < 65536 := h e (by simp)
    have hd : ∀ x ∈ dict, x.length < 65536 := fun x hx => h x (by simp [hx])
    have hflat : (e :: dict).flatMap entryBytes ++ body =
        e.length / 256 :: e.length % 256 :: (e ++ (dict.flatMap entryBytes ++ body)) := by
      simp [entryBytes, List.append_assoc]
    have hlen : ((e.length / 256) <<< 8) ||| e.length % 256 = e.length := by
      rw [lor8 (e.length / 256) (e.length % 256) (by omega)]
      omega
    rw [List.length_cons, hflat, readEntries]
    rw [hlen, List.take_left, List.drop_left, ih hd]

theorem decompress_compressDict (dict : List (List Nat)) (body : List Nat)
    (hn : dict.length ≤ 254) (h : ∀ e ∈ dict, e.length < 65536) :
    decompress (compressDict dict body) = expandDown dict dict.length body := by
  rw [compressDict, decompress]
  rw [if_neg (by omega)]
  dsimp only
  rw [readEntries_entryBytes dict body h]

/-! ## JSON codec lemmas -/

theorem matchLit_self : ∀ p s : List Nat, matchLit p (p ++ s) = some s
  | [], _ => rfl
  | p :: ps, s => by
    rw [List.cons_append, matchLit, if_pos rfl]
    exact matchLit_self ps s

theorem hexVal_hexDigitChar : ∀ n : Nat, n < 16 → hexVal (hexDigitChar n) = some n := by
  decide

theorem parseJsonString_escape (x : List Nat) (tail : List Nat) :
    parseJsonString (escapeJson x ++ 34 :: tail) = some (x, tail) := by
  induction x with
  | nil =>
    show parseJsonString (34 :: tail) = some ([], tail)
    rw [parseJsonString.eq_def]
    simp
  | cons c x ih =>
    have hstep : escapeJson (c :: x) ++ 34 :: tail =
        escChar c ++ (escapeJson x ++ 34 :: tail) := by
      simp [escapeJson, List.append_assoc]
    rw [hstep]
    by_cases h34 : c = 34
    · subst h34
      have he : escChar 34 = [92, 34] := rfl
      rw [he]
      show parseJsonString (92 :: (34 :: (escapeJson x ++ 34 :: tail))) = _
      rw [parseJsonString.eq_def]
      simp only [reduceIte]
      rw [ih]
      rfl
    · by_cases h92 : c = 92
      · subst h92
        have he : escChar 92 = [92, 92] := rfl
        rw [he]
        show parseJsonString (92 :: (92 :: (escapeJson x ++ 34 :: tail))) = _
        rw [parseJsonString.eq_def]
        simp only [reduceIte]
        rw [ih]
        rfl
      · by_cases hctl : c < 32
        · have he : escChar c = [92, 117, 48, 48, hexDigitChar (c / 16),
              hexDigitChar (c % 16)] := by
            simp [escChar, h34, h92, hctl]
          rw [he]
          show parseJsonString (92 :: (117 :: 48 :: 48 :: hexDigitChar (c / 16) ::
            hexDigitChar (c % 16) :: (escapeJson x ++ 34 :: tail))) = _
          rw [parseJsonString.eq_def]
          simp only [reduceIte]
          rw [show hexVal 48 = some 0 from rfl,
            hexVal_hexDigitChar _ (by omega), hexVal_hexDigitChar _ (by omega)]
          dsimp only
          rw [ih]
          have harith : 0 * 4096 + 0 * 256 + c / 16 * 16 + c % 16 = c := by omega
          show some ((0 * 4096 + 0 * 256 + c / 16 * 16 + c % 16) :: x, tail) =
            some (c :: x, tail)
          rw [harith]
        · have he : escChar c = [c] := by
            simp [escChar, h34, h92, hctl]
          rw [he]
          show parseJsonString (c :: (escapeJson x ++ 34 :: tail)) = _
          rw [parseJsonString.eq_def]
          simp only [if_neg h34, if_neg h92]
          rw [ih]
          rfl

theorem quoteJson_length (x : List Nat) : 2 ≤ (quoteJson x).length := by
  simp [quoteJson]

theorem jsonStrList_length_le : ∀ xs : List (List Nat), xs.length ≤ (jsonStrList xs).length
  | [] => by simp [jsonStrList]
  | [x] => by
    simp [jsonStrList, quoteJson]
  | x :: y :: rest => by
    rw [jsonStrList]
    have h1 := quoteJson_length x
    have h2 := jsonStrList_length_le (y :: rest)
    simp only [List.length_append, List.length_cons] at h2 ⊢
    omega

theorem parseStrings_jsonStrList : ∀ (xs : List (List Nat)) (fuel : Nat) (rest : List Nat),
    xs.length < fuel →
    parseStrings fuel (jsonStrList xs ++ 93 :: rest) = some (xs, rest)
  | [], fuel, rest, hf => by
    obtain ⟨f, rfl⟩ : ∃ f, fuel = f + 1 := ⟨fuel - 1, by omega⟩
    simp [jsonStrList, parseStrings]
  | [x], fuel, rest, hf => by
    obtain ⟨f, rfl⟩ : ∃ f, fuel = f + 1 := ⟨fuel - 1, by omega⟩
    have hform : jsonStrList [x] ++ 93 :: rest =
        34 :: (escapeJson x ++ 34 :: (93 :: rest)) := by
      simp [jsonStrList, quoteJson, List.append_assoc]
    rw [hform, parseStrings]
    rw [if_neg (show (34 : Nat) = 93 → False by omega), if_pos rfl]
    rw [parseJsonString_escape]
    dsimp only
    rw [if_pos rfl]
  | x :: y :: xs, fuel, rest, hf => by
    obtain ⟨f, rfl⟩ : ∃ f, fuel = f + 1 := ⟨fuel - 1, by omega⟩
    have hform : jsonStrList (x :: y :: xs) ++ 93 :: rest =
        34 :: (escapeJson x ++ 34 :: (44 :: (jsonStrList (y :: xs) ++ 93 :: rest))) := by
      simp [jsonStrList, quoteJson, List.append_assoc]
    rw [hform, parseStrings]
    rw [if_neg (show (34 : Nat) = 93 → False by omega), if_pos rfl]
    rw [parseJsonString_escape]
    dsimp only
    rw [if_neg (show (44 : Nat) = 93 → False by omega), if_pos rfl]
    rw [parseStrings_jsonStrList (y :: xs) f rest (by simp at hf ⊢; omega)]

theorem parse_serialize (C : Config) : parseConfigJson (serializeConfig C) = some C := by
  obtain ⟨src, man, dbl⟩ := C
  have hform : serializeConfig ⟨src, man, dbl⟩ =
      litSourcesKey ++ (jsonStrList src ++ 93 ::
        (litManualKey ++ (jsonStrList man ++ 93 ::
          (litDoubleNewlineKey ++ (if dbl then litTrue else litFalse))))) := by
    simp [serializeConfig, List.append_assoc]
  rw [hform, parseConfigJson, matchLit_self]
  dsimp only
  have hf1 : src.length < (jsonStrList src ++ 93 ::
      (litManualKey ++ (jsonStrList man ++ 93 ::
        (litDoubleNewlineKey ++ (if dbl then litTrue else litFalse))))).length + 1 := by
    have := jsonStrList_length_le src
    simp only [List.length_append, List.length_cons]
    omega
  rw [parseStrings_jsonStrList _ _ _ hf1]
  dsimp only
  rw [matchLit_self]
  dsimp only
  have hf2 : man.length < (jsonStrList man ++ 93 ::
      (litDoubleNewlineKey ++ (if dbl then litTrue else litFalse))).length + 1 := by
    have := jsonStrList_length_le man
    simp only [List.length_append, List.length_cons]
    omega
  rw [parseStrings_jsonStrList _ _ _ hf2]
  dsimp only
  rw [matchLit_self]
  dsimp only
  cases dbl
  · rw [if_neg (by decide), if_pos (by decide)]
  · rw [if_pos (by decide)]

/-! ## Code-unit bounds for the serialized document -/

theorem escChar_lt (c : Nat) (hc : c < 65536) : ∀ b ∈ escChar c, b < 65536 := by
  intro b hb
  unfold escChar at hb
  split at hb
  · simp at hb; omega
  · split at hb
    · simp at hb; omega
    · split at hb
      · have h16 : hexDigitChar (c / 16) < 256 := by unfold hexDigitChar; split <;> omega
        have h16' : hexDigitChar (c % 16) < 256 := by unfold hexDigitChar; split <;> omega
        simp at hb
        rcases hb with rfl | rfl | rfl | rfl | rfl | rfl <;> omega
      · simp at hb; omega

theorem quoteJson_lt (s : List Nat) (hs : ∀ c ∈ s, c < 65536) :
    ∀ b ∈ quoteJson s, b < 65536 := by
  intro b hb
  unfold quoteJson at hb
  simp only [List.mem_cons, List.mem_append, List.mem_singleton, List.not_mem_nil,
    or_false] at hb
  rcases hb with rfl | hb | rfl
  · omega
  · unfold escapeJson at hb
    rw [List.mem_flatMap] at hb
    obtain ⟨a, ha, hba⟩ := hb
    exact escChar_lt a (hs a ha) b hba
  · omega

theorem jsonStrList_lt : ∀ xs : List (List Nat), (∀ s ∈ xs, ∀ c ∈ s, c < 65536) →
    ∀ b ∈ jsonStrList xs, b < 65536
  | [], _, b, hb => by simp [jsonStrList] at hb
  | [x], hs, b, hb => by
    rw [jsonStrList] at hb
    exact quoteJson_lt x (hs x (by simp)) b hb
  | x :: y :: rest, hs, b, hb => by
    rw [jsonStrList] at hb
    simp only [List.mem_append, List.mem_cons] at hb
    rcases hb with hb | rfl | hb
    · exact quoteJson_lt x (hs x (by simp)) b hb
    · omega
    · exact jsonStrList_lt (y :: rest) (fun s hsm => hs s (by simp at hsm ⊢; tauto)) b
        (by simpa using hb)

theorem serializeConfig_lt (C : Config) (h : ConfigWF C) :
    ∀ c ∈ serializeConfig C, c < 65536 := by
  intro c hc
  unfold serializeConfig at hc
  simp only [List.mem_append, List.mem_cons, List.mem_singleton, List.not_mem_nil,
    or_false] at hc
  have hkey1 : ∀ x ∈ litSourcesKey, x < 65536 := by decide
  have hkey2 : ∀ x ∈ litManualKey, x < 65536 := by decide
  have hkey3 : ∀ x ∈ litDoubleNewlineKey, x < 65536 := by decide
  have htf : ∀ x ∈ (if C.doubleNewline then litTrue else litFalse), x < 65536 := by
    split <;> decide
  rcases hc with ((((((hc | hc) | rfl) | hc) | hc) | rfl) | hc) | hc
  · exact hkey1 c hc
  · exact jsonStrList_lt C.sources h.1 c hc
  · omega
  · exact hkey2 c hc
  · exact jsonStrList_lt C.manual h.2 c hc
  · omega
  · exact hkey3 c hc
  · exact htf c hc

theorem compressBypass_lt (doc : List Nat) (h : ∀ c ∈ doc, c < 65536) :
    ∀ c ∈ compressBypass doc, c < 65536 := by
  intro c hc
  unfold compressBypass at hc
  rcases List.mem_cons.mp hc with rfl | hc
  · omega
  · exact h c hc

theorem compressDict_lt (dict : List (List Nat)) (body : List Nat)
    (hn : dict.length ≤ 254)
    (hdict : ∀ e ∈ dict, e.length < 65536 ∧ ∀ c ∈ e, c < 65536)
    (hbody : ∀ c ∈ body, c < 65536) :
    ∀ c ∈ compressDict dict body, c < 65536 := by
  intro c hc
  unfold compressDict at hc
  rcases List.mem_cons.mp hc with rfl | hc
  · omega
  · rcases List.mem_append.mp hc with hc | hc
    · rw [List.mem_flatMap] at hc
      obtain ⟨e, he, hce⟩ := hc
      obtain ⟨hel, hec⟩ := hdict e he
      unfold entryBytes at hce
      rcases List.mem_cons.mp hce with rfl | hce
      · omega
      · rcases List.mem_cons.mp hce with rfl | hce
        · omega
        · exact hec c hce
    · exact hbody c hc

/-! ## Decompression of well-formed and of garbled input -/

theorem decompress_compressBypass (doc : List Nat) :
    decompress (compressBypass doc) = doc := by
  rw [compressBypass, decompress, if_pos rfl]

/-- A non-bypass count byte whose first declared entry length swallows
the whole remaining input yields an empty body, hence an empty
document. -/
theorem decompress_short (k hi lo : Nat) (rest : List Nat) (hc : k + 1 ≠ 255)
    (h : rest.length ≤ (hi <<< 8) ||| lo) :
    decompress ((k + 1) :: hi :: lo :: rest) = [] := by
  have hdrop : rest.drop ((hi <<< 8) ||| lo) = [] := List.drop_eq_nil_of_le h
  have hre : readEntries (k + 1) (hi :: lo :: rest) =
      (rest.take ((hi <<< 8) ||| lo) :: (readEntries k []).1, (readEntries k []).2) := by
    rw [readEntries]
    rw [hdrop]
  have h2 : (readEntries k []).2 = [] := by
    cases k
    · rfl
    · rw [readEntries]
  rw [decompress, if_neg hc, hre]
  dsimp only
  rw [h2]
  exact expandDown_nil _ _

/-! ## C1: wire round-trip -/

/-- The example configuration the counterexample encodes. -/
theorem c1_counterexample_decode :
    decodeData (specWireBypass (serializeConfig ⟨[], [], false⟩)) = none ∧
      (none : Option Config) ≠ some ⟨[], [], false⟩ := by
  constructor
  · have hesc : latinEscape (compressBypass (serializeConfig ⟨[], [], false⟩)) =
        compressBypass (serializeConfig ⟨[], [], false⟩) := by decide
    have hb : ∀ b ∈ compressBypass (serializeConfig ⟨[], [], false⟩), b < 256 := by decide
    rw [specWireBypass, hesc, decodeData, repairPlus_btoa _ hb, atob_btoa _ hb]
    dsimp only
    have hl : latin1ToString (compressBypass (serializeConfig ⟨[], [], false⟩)) =
        8827 :: 115 :: 111 :: [117, 114, 99, 101, 115, 34, 58, 91, 93, 44, 34, 109, 97,
          110, 117, 97, 108, 34, 58, 91, 93, 44, 34, 100, 111, 117, 98, 108, 101, 78,
          101, 119, 108, 105, 110, 101, 34, 58, 102, 97, 108, 115, 101, 125] := by decide
    rw [hl]
    have hd : decompress (8827 :: 115 :: 111 :: [117, 114, 99, 101, 115, 34, 58, 91, 93,
        44, 34, 109, 97, 110, 117, 97, 108, 34, 58, 91, 93, 44, 34, 100, 111, 117, 98,
        108, 101, 78, 101, 119, 108, 105, 110, 101, 34, 58, 102, 97, 108, 115, 101,
        125]) = [] :=
      decompress_short 8826 115 111 _ (by omega) (by decide)
    rw [hd]
    rfl
  · simp

/-- C1: as stated the claim is false — with the spec's `LatinEscape`
(escaping only code points strictly above 0xFF) the bypass marker 0xFF
reaches `latin1ToString` unescaped, is consumed as an escape
introducer together with the first two JSON characters, and the
decode of the wire encoding of the configuration
`{sources: [], manual: [], doubleNewline: false}` fails (returns
`none`) instead of returning the configuration. -/
theorem c1_counterexample :
    decodeData (specWireBypass (serializeConfig ⟨[], [], false⟩)) ≠
      some ⟨[], [], false⟩ := by
  rw [c1_counterexample_decode.1]
  exact c1_counterexample_decode.2

/-- C1 (amended): the round-trip `decode (encode C) = C` holds on both
paths once the escape stage escapes every code point ≥ 0xFF (so the
bypass marker, a 0xFF count byte and literal 0xFF text survive escape
restoration): (1) the bypass path round-trips for every configuration
of valid UTF-16 code units; (2) the dictionary path round-trips for
every dictionary of at most 254 entries (a count byte of 255 would
collide with the bypass marker) whose entry lengths fit in 16 bits,
whenever the high-to-low marker expansion of the transmitted body
reproduces the configuration's JSON document. -/
theorem c1_roundtrip_fixed :
    (∀ C : Config, ConfigWF C →
      decodeData (fixedWireBypass (serializeConfig C)) = some C) ∧
    (∀ (C : Config) (dict : List (List Nat)) (body : List Nat), ConfigWF C →
      dict.length ≤ 254 →
      (∀ e ∈ dict, e.length < 65536 ∧ ∀ c ∈ e, c < 65536) →
      (∀ c ∈ body, c < 65536) →
      expandDown dict dict.length body = serializeConfig C →
      decodeData (fixedWireDict dict body) = some C) := by
  constructor
  · intro C hC
    have hdoc := serializeConfig_lt C hC
    have hw := compressBypass_lt _ hdoc
    rw [fixedWireBypass, decodeData_transport _ hw, latin1_latinEscapeGE _ hw,
      decompress_compressBypass]
    exact parse_serialize C
  · intro C dict body hC h254 hdict hbody hexp
    have hw := compressDict_lt dict body h254 hdict hbody
    rw [fixedWireDict, decodeData_transport _ hw, latin1_latinEscapeGE _ hw,
      decompress_compressDict dict body h254 (fun e he => (hdict e he).1), hexp]
    exact parse_serialize C

/-- Concrete instantiation of the amended round-trip: a bypass-path
configuration and a dictionary-path configuration whose document
`{"sources":["udp://a"],"manual":["udp://a"],"doubleNewline":true}` is
compressed with the single dictionary entry `"udp://a"` (quotes
included) marked twice in the body. -/
theorem c1_roundtrip_fixed_witness :
    decodeData (fixedWireBypass (serializeConfig ⟨[[104]], [], false⟩)) =
      some ⟨[[104]], [], false⟩ ∧
    decodeData (fixedWireDict [[34, 117, 100, 112, 58, 47, 47, 97, 34]]
      ([123, 34, 115, 111, 117, 114, 99, 101, 115, 34, 58, 91, 57344, 93, 44, 34, 109,
        97, 110, 117, 97, 108, 34, 58, 91, 57344, 93] ++ litDoubleNewlineKey ++ litTrue)) =
      some ⟨[[117, 100, 112, 58, 47, 47, 97]], [[117, 100, 112, 58, 47, 47, 97]], true⟩ := by
  constructor
  · exact c1_roundtrip_fixed.1 ⟨[[104]], [], false⟩ (by constructor <;> decide)
  · exact c1_roundtrip_fixed.2
      ⟨[[117, 100, 112, 58, 47, 47, 97]], [[117, 100, 112, 58, 47, 47, 97]], true⟩
      [[34, 117, 100, 112, 58, 47, 47, 97, 34]]
      ([123, 34, 115, 111, 117, 114, 99, 101, 115, 34, 58, 91, 57344, 93, 44, 34, 109,
        97, 110, 117, 97, 108, 34, 58, 91, 57344, 93] ++ litDoubleNewlineKey ++ litTrue)
      (by constructor <;> decide) (by decide) (by decide) (by decide) (by decide)

/-! ## C2: SSRF hostname classification -/

theorem containsSeq_iff (pat : List Nat) : ∀ s : List Nat,
    containsSeq pat s = true ↔ pat <:+: s
  | [] => by
    rw [containsSeq, List.isPrefixOf_iff_prefix]
    constructor
    · intro h
      rw [List.prefix_nil] at h
      simp [h]
    · intro h
      rw [List.infix_nil] at h
      simp [h]
  | c :: rest => by
    rw [containsSeq, Bool.or_eq_true, List.isPrefixOf_iff_prefix,
      containsSeq_iff pat rest, List.infix_cons_iff]

theorem in172Range_iff (h : List Nat) :
    in172Range h = true ↔
      ∃ n, 16 ≤ n ∧ n ≤ 31 ∧ ([49, 55, 50, 46] ++ digits2 n ++ [46]) <+: h := by
  rw [in172Range.eq_def]
  split
  · rename_i d1 d2 t
    simp only [Bool.or_eq_true, Bool.and_eq_true, decide_eq_true_eq]
    constructor
    · intro hb
      refine ⟨(d1 - 48) * 10 + (d2 - 48), by omega, by omega, ?_⟩
      have hd1 : 48 + ((d1 - 48) * 10 + (d2 - 48)) / 10 = d1 := by omega
      have hd2 : 48 + ((d1 - 48) * 10 + (d2 - 48)) % 10 = d2 := by omega
      simp [digits2, hd1, hd2, List.cons_prefix_cons]
    · rintro ⟨n, h16, h31, hpre⟩
      simp only [digits2, List.cons_append, List.nil_append,
        List.cons_prefix_cons] at hpre
      omega
  · rename_i hno
    simp only [Bool.false_eq_true, false_iff]
    rintro ⟨n, h16, h31, hpre⟩
    simp only [digits2, List.cons_append, List.nil_append] at hpre
    obtain ⟨t, ht⟩ := hpre
    simp only [List.cons_append, List.nil_append] at ht
    exact hno (48 + n / 10) (48 + n % 10) t ht.symm

/-- C2: as stated the claim is false — the claimed classification is
implemented by the single-target and batch validators, but the
aggregation endpoint's validator (raw.js line 114) omits both the
`.local` suffix rule and the `172.16.`-`172.31.` range: it accepts
`foo.local` and `172.16.0.1`, which the claim says every endpoint
rejects as private. -/
theorem c2_counterexample :
    rawIsPrivate [102, 111, 111, 46, 108, 111, 99, 97, 108] = false ∧
    specIsPrivate [102, 111, 111, 46, 108, 111, 99, 97, 108] ∧
    rawIsPrivate [49, 55, 50, 46, 49, 54, 46, 48, 46, 49] = false ∧
    specIsPrivate [49, 55, 50, 46, 49, 54, 46, 48, 46, 49] := by
  refine ⟨by decide, ?_, by decide, ?_⟩
  · exact Or.inr (Or.inl (by decide))
  · exact Or.inr (Or.inr (Or.inr (Or.inr (Or.inr (Or.inl
      ⟨16, by omega, by omega, ⟨[48, 46, 49], rfl⟩⟩)))))

/-- C2 (amended): the single-target and batch validators classify a
lower-cased hostname as private exactly per the claimed predicate
(equals `localhost`, ends `.local`, starts `127.`/`10.`/`192.168.`/
`0.`/`172.16.`-`172.31.`, or contains `::1`), and the claimed
boundary battery holds for them; the aggregation endpoint's validator
instead implements the reduced predicate without the `.local` and
`172.16.`-`172.31.` rules, so `foo.local` and `172.16.0.1` pass it. -/
theorem c2_validators :
    (∀ h, proxyIsPrivate h = true ↔ specIsPrivate h) ∧
    (∀ h, batchIsPrivate h = proxyIsPrivate h) ∧
    (∀ h, rawIsPrivate h = true ↔ specIsPrivateReduced h) ∧
    (proxyIsPrivate [49, 50, 55, 46, 48, 46, 48, 46, 49] = true ∧
      proxyIsPrivate [49, 48, 46, 48, 46, 48, 46, 53] = true ∧
      proxyIsPrivate [49, 57, 50, 46, 49, 54, 56, 46, 49, 46, 49] = true ∧
      proxyIsPrivate [49, 55, 50, 46, 49, 54, 46, 48, 46, 49] = true ∧
      proxyIsPrivate [49, 55, 50, 46, 51, 49, 46, 50, 53, 53, 46, 50, 53, 53] = true ∧
      proxyIsPrivate [108, 111, 99, 97, 108, 104, 111, 115, 116] = true ∧
      proxyIsPrivate [102, 111, 111, 46, 108, 111, 99, 97, 108] = true ∧
      proxyIsPrivate [58, 58, 49] = true ∧
      proxyIsPrivate [49, 55, 50, 46, 51, 50, 46, 48, 46, 49] = false ∧
      proxyIsPrivate [49, 55, 50, 46, 49, 53, 46, 48, 46, 49] = false) ∧
    (rawIsPrivate [102, 111, 111, 46, 108, 111, 99, 97, 108] = false ∧
      rawIsPrivate [49, 55, 50, 46, 49, 54, 46, 48, 46, 49] = false) := by
  refine ⟨?_, ?_, ?_, by decide, by decide⟩
  · intro h
    rw [proxyIsPrivate, specIsPrivate]
    simp only [Bool.or_eq_true, decide_eq_true_eq, List.isPrefixOf_iff_prefix,
      List.isSuffixOf_iff_suffix, containsSeq_iff, in172Range_iff, or_assoc]
  · intro h
    rw [batchIsPrivate, proxyIsPrivate]
    rw [Bool.eq_iff_iff]
    simp only [Bool.or_eq_true]
    tauto
  · intro h
    rw [rawIsPrivate, specIsPrivateReduced]
    simp only [Bool.or_eq_true, decide_eq_true_eq, List.isPrefixOf_iff_prefix,
      containsSeq_iff, or_assoc]
    tauto

/-! ## C3: size handling -/

/-- C3: as stated the claim is false — the aggregation fetcher
(raw.js lines 137-140) does not truncate an oversized body to its
first `MAX_SIZE_BYTES` units: it rejects the body outright
(`return null`), shown here on a body of exactly
`MAX_SIZE_BYTES + 1` units. -/
theorem c3_counterexample :
    rawBodyGate (List.replicate (512 * 1024 + 1) 97) = none := by
  rw [rawBodyGate, if_pos (by rw [List.length_replicate]; omega)]

/-- C3 (amended): the single-target and batch proxy handlers truncate
an oversized body to exactly its first `MAX_SIZE_BYTES` units (and
leave bodies within the limit untouched); the aggregation fetcher
instead rejects oversized bodies, returning `null`. -/
theorem c3_truncation :
    (∀ t : List Nat, t.length > MAX_SIZE_BYTES →
      proxyTruncate t = t.take MAX_SIZE_BYTES ∧
        (proxyTruncate t).length = MAX_SIZE_BYTES) ∧
    (∀ t : List Nat, t.length ≤ MAX_SIZE_BYTES → proxyTruncate t = t) ∧
    (∀ t : List Nat, t.length > 512 * 1024 → rawBodyGate t = none) ∧
    (∀ t : List Nat, t.length ≤ 512 * 1024 → rawBodyGate t = some t) := by
  refine ⟨?_, ?_, ?_, ?_⟩
  · intro t ht
    rw [proxyTruncate, if_pos ht]
    refine ⟨rfl, ?_⟩
    rw [List.length_take]
    omega
  · intro t ht
    rw [proxyTruncate, if_neg (by omega)]
  · intro t ht
    rw [rawBodyGate, if_pos ht]
  · intro t ht
    rw [rawBodyGate, if_neg (by omega)]

/-- Concrete instantiation of the amended truncation behavior at a
body of `MAX_SIZE_BYTES + 1` units. -/
theorem c3_truncation_witness :
    proxyTruncate (List.replicate (MAX_SIZE_BYTES + 1) 98) =
      (List.replicate (MAX_SIZE_BYTES + 1) 98).take MAX_SIZE_BYTES ∧
    rawBodyGate (List.replicate (MAX_SIZE_BYTES + 1) 98) = none := by
  constructor
  · exact (c3_truncation.1 _ (by rw [List.length_replicate]; omega)).1
  · exact c3_truncation.2.2.1 _
      (by rw [List.length_replicate]; simp [MAX_SIZE_BYTES])

/-! ## C4: content sanity checks -/

/-- C4: as stated the claim is false on both handlers — the batch
handler's check (part_000 line 77) omits the `https://` pattern, so
the non-empty body `https://a` is rejected even though its prefix
contains `https://`; and the single-target handler (proxy.js lines
99-107) has no empty-body exception, so the empty body is rejected
with 422 even though the claim says it is accepted. -/
theorem c4_counterexample :
    batchContentAccept [104, 116, 116, 112, 115, 58, 47, 47, 97] = false ∧
    containsSeq [104, 116, 116, 112, 115, 58, 47, 47]
      (([104, 116, 116, 112, 115, 58, 47, 47, 97].take 500).map toLowerAscii) = true ∧
    proxyContentOk [] = false := by
  refine ⟨by decide, by decide, by decide⟩

/-- C4 (amended): the single-target check accepts exactly the bodies
whose lower-cased first 1000 units contain one of the four scheme
substrings, with no empty-body exception; the batch check accepts
exactly the bodies whose lower-cased first 500 units contain
`udp://`, `http://` or `wss://` (not `https://`), or whose trimmed
body is empty. -/
theorem c4_content_checks :
    (∀ t : List Nat, proxyContentOk t = true ↔
      ([117, 100, 112, 58, 47, 47] <:+: (t.take 1000).map toLowerAscii ∨
        [104, 116, 116, 112, 58, 47, 47] <:+: (t.take 1000).map toLowerAscii ∨
        [104, 116, 116, 112, 115, 58, 47, 47] <:+: (t.take 1000).map toLowerAscii ∨
        [119, 115, 115, 58, 47, 47] <:+: (t.take 1000).map toLowerAscii)) ∧
    (∀ t : List Nat, batchContentAccept t = true ↔
      ([117, 100, 112, 58, 47, 47] <:+: (t.take 500).map toLowerAscii ∨
        [104, 116, 116, 112, 58, 47, 47] <:+: (t.take 500).map toLowerAscii ∨
        [119, 115, 115, 58, 47, 47] <:+: (t.take 500).map toLowerAscii ∨
        jsTrim t = [])) := by
  constructor
  · intro t
    rw [proxyContentOk]
    simp only [Bool.or_eq_true, containsSeq_iff, or_assoc]
  · intro t
    rw [batchContentAccept, batchContentOk]
    simp only [Bool.or_eq_true, containsSeq_iff, or_assoc, decide_eq_true_eq]

/-! ## C5: marker expansion order and residual markers -/

/-- C5: as stated the claim is false — in the two-entry dictionary
whose entry 0 stores entry 1's marker (`U+E001`), the high-to-low
expansion substitutes marker 1 first (no occurrence yet), then
marker 0, re-introducing the `U+E001` inside entry 0's text, which is
never expanded: the output retains a residual marker character. -/
theorem c5_counterexample :
    decompress [2, 0, 2, 57345, 97, 0, 1, 98, 57344] = [57345, 97] ∧
    57344 + 1 ∈ decompress [2, 0, 2, 57345, 97, 0, 1, 98, 57344] := by
  exact ⟨by decide, by decide⟩

theorem expandDown_no_marker (dict : List (List Nat))
    (hnest : ∀ j, j < dict.length → ∀ c ∈ dict.getD j [], 57344 ≤ c →
      c < 57344 + dict.length → c < 57344 + j) :
    ∀ n, n ≤ dict.length → ∀ r : List Nat,
      (∀ c ∈ r, 57344 ≤ c → c < 57344 + dict.length → c < 57344 + n) →
      ∀ c ∈ expandDown dict n r, 57344 ≤ c → c < 57344 + dict.length → False
  | 0, _, r, hr, c, hc, hge, hlt => by
    rw [expandDown] at hc
    have := hr c hc hge hlt
    omega
  | n + 1, hn, r, hr, c, hc, hge, hlt => by
    rw [expandDown] at hc
    refine expandDown_no_marker dict hnest n (by omega) _ ?_ c hc hge hlt
    intro x hx hxge hxlt
    rw [substChar, List.mem_flatMap] at hx
    obtain ⟨a, ha, hxa⟩ := hx
    by_cases ham : a = 57344 + n
    · rw [if_pos ham] at hxa
      exact hnest n (by omega) x hxa hxge hxlt
    · rw [if_neg ham] at hxa
      rw [List.mem_singleton] at hxa
      subst hxa
      have := hr x ha hxge hxlt
      omega

/-- C5 (amended): when every dictionary entry stores markers of
strictly lower-indexed entries only (the shape an incremental
compressor produces), the highest-to-lowest expansion order leaves no
residual marker characters in the decompressed output: no unit of the
result lies in the marker range `U+E000 .. U+E000+N-1`. -/
theorem c5_nested_expansion (dict : List (List Nat)) (body : List Nat)
    (hn : dict.length ≤ 254) (hlen : ∀ e ∈ dict, e.length < 65536)
    (hnest : ∀ j, j < dict.length → ∀ c ∈ dict.getD j [], 57344 ≤ c →
      c < 57344 + dict.length → c < 57344 + j) :
    ∀ c ∈ decompress (compressDict dict body), 57344 ≤ c →
      c < 57344 + dict.length → False := by
  rw [decompress_compressDict dict body hn hlen]
  exact expandDown_no_marker dict hnest dict.length le_rfl body
    (fun c _ _ hlt => hlt)

/-- Concrete instantiation: entry 1 (`U+E000` then `a`) references the
lower-indexed entry 0 (`b`); the decompressed output contains no
marker of the two-entry range, in particular not `U+E000`. -/
theorem c5_nested_expansion_witness :
    57344 ∉ decompress (compressDict [[98], [57344, 97]] [57345]) := by
  intro hmem
  exact c5_nested_expansion [[98], [57344, 97]] [57345] (by decide) (by decide)
    (by decide) 57344 hmem (by omega) (by decide)

/-! ## C6 and C10: aggregation and deduplication -/

theorem cleanAndAdd_eq (line : List Nat) (set : List (List Nat)) :
    cleanAndAdd line set =
      match cleanLine line with
      | none => set
      | some c => insertTracker set c := by
  rw [cleanAndAdd, cleanLine]
  by_cases h1 : jsTrim line = []
  · simp [h1]
  · by_cases h2 : (jsTrim line).head? = some 35
    · simp [h1, h2]
    · by_cases h3 : schemeTest (jsTrim line)
      · simp [h1, h2, h3]
      · simp [h1, h2, h3]

theorem foldl_cleanAndAdd (lines : List (List Nat)) :
    ∀ set : List (List Nat),
      lines.foldl (fun st l => cleanAndAdd l st) set =
        (lines.filterMap cleanLine).foldl insertTracker set := by
  induction lines with
  | nil => intro set; rfl
  | cons l lines ih =>
    intro set
    rw [List.foldl_cons, List.filterMap_cons, cleanAndAdd_eq]
    cases hcl : cleanLine l
    · rw [ih]
    · rw [ih, List.foldl_cons]

theorem foldl_bodies (bodies : List (Option (List Nat))) :
    ∀ set : List (List Nat),
      bodies.foldl
        (fun st ob =>
          match ob with
          | none => st
          | some text =>
            if text = [] then st
            else (splitLines text).foldl (fun st2 l => cleanAndAdd l st2) st)
        set =
      ((bodies.flatMap bodyLines).filterMap cleanLine).foldl insertTracker set := by
  induction bodies with
  | nil => intro set; rfl
  | cons ob bodies ih =>
    intro set
    rw [List.foldl_cons, List.flatMap_cons, List.filterMap_append, List.foldl_append]
    rcases ob with _ | text
    · rw [ih]
      rfl
    · by_cases he : text = []
      · rw [ih]
        simp [bodyLines, he]
      · rw [ih]
        simp only [bodyLines, he, if_neg he, reduceIte]
        rw [foldl_cleanAndAdd]

theorem aggregate_eq (manual : List (List Nat)) (bodies : List (Option (List Nat))) :
    aggregate manual bodies = dedupKeepFirst (qualifyingLines manual bodies) := by
  rw [aggregate, dedupKeepFirst, qualifyingLines]
  rw [List.filterMap_append, List.foldl_append]
  rw [foldl_bodies, foldl_cleanAndAdd]

theorem insertTracker_nodup (set : List (List Nat)) (x : List Nat)
    (h : set.Nodup) : (insertTracker set x).Nodup := by
  rw [insertTracker]
  split
  · exact h
  · rename_i hx
    simp [List.nodup_append, h, hx]

theorem foldl_insertTracker_nodup (xs : List (List Nat)) :
    ∀ set : List (List Nat), set.Nodup → (xs.foldl insertTracker set).Nodup := by
  induction xs with
  | nil => intro set h; exact h
  | cons x xs ih =>
    intro set h
    rw [List.foldl_cons]
    exact ih _ (insertTracker_nodup set x h)

/-- C6: the aggregation loop equals the spec's pipeline — filter every
manual entry (in order) and then every line of every successful body
(in source order) through trim / drop-empty / drop-`#` /
allowed-scheme, and insert into a first-occurrence-keeps-position
deduplicating set; the result has no duplicates, a later duplicate
insertion is a no-op, and non-tracker inputs such as `ftp://x` and
`not a url` are excluded. -/
theorem c6_aggregator :
    (∀ manual bodies,
      aggregate manual bodies = dedupKeepFirst (qualifyingLines manual bodies)) ∧
    (∀ manual bodies, (aggregate manual bodies).Nodup) ∧
    (∀ (set : List (List Nat)) (x : List Nat), x ∈ set → insertTracker set x = set) ∧
    cleanLine [102, 116, 112, 58, 47, 47, 120] = none ∧
    cleanLine [110, 111, 116, 32, 97, 32, 117, 114, 108] = none := by
  refine ⟨aggregate_eq, ?_, ?_, by decide, by decide⟩
  · intro manual bodies
    rw [aggregate_eq, dedupKeepFirst]
    exact foldl_insertTracker_nodup _ [] List.nodup_nil
  · intro set x hx
    rw [insertTracker, if_pos hx]

/-- Concrete instantiation: inserting an element already in the set is
a no-op, and a concrete aggregate is duplicate-free. -/
theorem c6_aggregator_witness :
    insertTracker [[97]] [97] = [[97]] ∧
    (aggregate [[117, 100, 112, 58, 47, 47, 97]] [none]).Nodup := by
  exact ⟨c6_aggregator.2.2.1 [[97]] [97] (by decide), c6_aggregator.2.1 _ _⟩

/-- C10: deduplication compares exact strings — two qualifying lines
that differ only in letter case are both retained, as distinct
members, in processing order. -/
theorem c10_case_sensitive_dedup (x y : List Nat) (hxy : x ≠ y)
    (_hcase : x.map toLowerAscii = y.map toLowerAscii)
    (hx : cleanLine x = some x) (hy : cleanLine y = some y) :
    aggregate [x, y] [] = [x, y] := by
  rw [aggregate]
  simp only [List.foldl_nil]
  rw [List.foldl_cons, List.foldl_cons, List.foldl_nil]
  rw [cleanAndAdd_eq x [], hx]
  dsimp only
  rw [show insertTracker [] x = [x] by rw [insertTracker, if_neg (by simp)]; rfl]
  rw [cleanAndAdd_eq y [x], hy]
  dsimp only
  rw [insertTracker, if_neg (by simp; exact fun h => hxy h.symm)]
  rfl

/-- Concrete instantiation of case-sensitive deduplication:
`udp://HOST/announce` and `udp://host/announce` are both retained. -/
theorem c10_case_sensitive_dedup_witness :
    aggregate [[117, 100, 112, 58, 47, 47, 72, 79, 83, 84, 47, 97, 110, 110, 111,
        117, 110, 99, 101],
      [117, 100, 112, 58, 47, 47, 104, 111, 115, 116, 47, 97, 110, 110, 111, 117,
        110, 99, 101]] [] =
    [[117, 100, 112, 58, 47, 47, 72, 79, 83, 84, 47, 97, 110, 110, 111, 117, 110,
        99, 101],
      [117, 100, 112, 58, 47, 47, 104, 111, 115, 116, 47, 97, 110, 110, 111, 117,
        110, 99, 101]] := by
  exact c10_case_sensitive_dedup _ _ (by decide) (by decide) (by decide) (by decide)

/-! ## C7: response composition -/

/-- C7: as stated the claim is false — the shipped handler has
`DEBUG = true` (raw.js line 4), so the response body is not the joined
set alone: with one debug log line `D` and one tracker `a`, the body
is the debug line, a blank line, then the tracker, not the tracker
alone. -/
theorem c7_counterexample :
    responseText [[68]] [[97]] false ≠ joinSep [10] [[97]] := by
  decide

/-- C7 (amended): with `DEBUG = true` as shipped, the aggregation
response body is the debug log lines joined by `\n`, then a blank
line, then the aggregated set joined by `\n\n` when `doubleNewline` is
set and `\n` otherwise; were the flag off, the body would be exactly
the joined set.  The response carries the plain-text content type, the
`trackers_sync.txt` content-disposition hint, the one-hour cache
directive and the permissive cross-origin header. -/
theorem c7_response_composition :
    DEBUG = true ∧
    (∀ logs trackers dbl, responseText logs trackers dbl =
      joinSep [10] logs ++ [10, 10] ++
        joinSep (if dbl then [10, 10] else [10]) trackers) ∧
    (∀ logs trackers dbl, responseTextWith false logs trackers dbl =
      joinSep (if dbl then [10, 10] else [10]) trackers) ∧
    ([67, 97, 99, 104, 101, 45, 67, 111, 110, 116, 114, 111, 108],
      [112, 117, 98, 108, 105, 99, 44, 32, 109, 97, 120, 45, 97, 103, 101, 61, 51,
        54, 48, 48]) ∈ rawResponseHeaders ∧
    ([65, 99, 99, 101, 115, 115, 45, 67, 111, 110, 116, 114, 111, 108, 45, 65, 108,
        108, 111, 119, 45, 79, 114, 105, 103, 105, 110], [42]) ∈ rawResponseHeaders := by
  refine ⟨rfl, ?_, ?_, by decide, by decide⟩
  · intro logs trackers dbl
    rw [responseText, responseTextWith]
    simp [DEBUG]
  · intro logs trackers dbl
    rw [responseTextWith]
    simp

/-! ## C8: proxy status mapping -/

theorem proxyRespond_eq_status (up : Option (List Nat)) (pr : Option ParsedUrl)
    (o so : List Nat) (f : FetchBehavior) :
    proxyRespond up pr o so f = proxyStatus (proxyClassify up pr o so f) := by
  rcases up with _ | u
  · rfl
  rcases pr with _ | pu
  · rfl
  rcases f with _ | _ | ⟨ok, st, cl, body⟩ <;>
    rw [proxyRespond, proxyClassify] <;>
    split_ifs <;>
    rfl

/-- C8: as stated the claim is false — the single-target proxy also
returns 413 (request entity too large) when the upstream response
advertises a `Content-Length` above the limit, a status outside the
claimed set `{400, 403, 422, 500, 502, 504}`. -/
theorem c8_counterexample :
    proxyRespond (some [104]) (some ⟨litHttpProto, [101, 120]⟩) [] []
      (.returns true 200 (some (MAX_SIZE_BYTES + 1)) []) = 413 ∧
    (413 : Nat) ∉ [400, 403, 422, 500, 502, 504] := by
  exact ⟨by decide, by decide⟩

/-- C8 (amended): the single-target proxy's response status is exactly
`proxyStatus` of the branch that decides the request — missing or
unparsable URL 400; disallowed protocol, private hostname or
unauthorized origin 403; advertised content-length over the limit
413; non-success upstream 502; timeout 504; invalid content 422; any
other fetch failure 500 — and 400, 403, 413, 422, 500, 502, 504 are
the only statuses it returns besides the 200 success path. -/
theorem c8_status_mapping :
    (∀ up pr o so f, proxyRespond up pr o so f =
      proxyStatus (proxyClassify up pr o so f)) ∧
    (∀ oc : ProxyOutcome, proxyStatus oc ∈ [200, 400, 403, 413, 422, 500, 502, 504]) ∧
    proxyStatus .missingUrl = 400 ∧ proxyStatus .invalidUrl = 400 ∧
    proxyStatus .badProtocol = 403 ∧ proxyStatus .privateHost = 403 ∧
    proxyStatus .badOrigin = 403 ∧ proxyStatus .headerTooLarge = 413 ∧
    proxyStatus .upstreamNotOk = 502 ∧ proxyStatus .timeout = 504 ∧
    proxyStatus .contentInvalid = 422 ∧ proxyStatus .fetchFailed = 500 := by
  refine ⟨proxyRespond_eq_status, ?_, rfl, rfl, rfl, rfl, rfl, rfl, rfl, rfl, rfl, rfl⟩
  intro oc
  cases oc <;> decide

end Tracky
